import Mathlib

/-!
Verification of the coordinate-transform pipeline of the armeta document
inspection repository: resize/pad, bounding-box conversion, clipping,
YOLO normalization, and the two overlapping-tile generators.

All Python floats are modelled as exact rationals, Python ints as Nat/Int,
tuples as structures, and raising as an Except error value.
-/

namespace Armeta

/-- Transform metadata produced by the resize/pad step
(src/preprocessing/resize_pad.py), consumed by
convert_orig_to_preprocessed.  Only the fields that function reads. -/
structure TransformMeta where
  scale : ℚ
  pad_left : ℚ
  pad_top : ℚ

/-- A bounding box as the 4-tuple (x, y, w, h) used throughout
src/preprocessing/bbox_utils.py. -/
structure Box where
  x : ℚ
  y : ℚ
  w : ℚ
  h : ℚ
deriving DecidableEq, Repr

namespace BboxUtils

/-- src/preprocessing/bbox_utils.py, convert_orig_to_preprocessed:
scale then pad a box from original PDF coordinates into the
preprocessed square: x_p = x*s + pl, y_p = y*s + pt, w_p = w*s, h_p = h*s. -/
def convert_orig_to_preprocessed (x y w h : ℚ) (meta : TransformMeta) : Box :=
  let s := meta.scale
  let pl := meta.pad_left
  let pt := meta.pad_top
  ⟨x * s + pl, y * s + pt, w * s, h * s⟩

/-- Modelled from the spec: the inverse box map is not a function of the
repository; the spec's round-trip property names it explicitly as
((x' - pad_left)/scale, (y' - pad_top)/scale, w'/scale, h'/scale). -/
def convert_preprocessed_to_orig (b : Box) (meta : TransformMeta) : Box :=
  ⟨(b.x - meta.pad_left) / meta.scale, (b.y - meta.pad_top) / meta.scale,
    b.w / meta.scale, b.h / meta.scale⟩

/-- src/preprocessing/bbox_utils.py, clip_bbox: keep a bbox inside the
size x size borders (x,y clamped into [0,size-1], w,h clamped into
[1, size - x] resp. [1, size - y], using the already-clamped x,y). -/
def clip_bbox (x y w h : ℚ) (size : ℚ) : Box :=
  let x' := max 0 (min x (size - 1))
  let y' := max 0 (min y (size - 1))
  let w' := max 1 (min w (size - x'))
  let h' := max 1 (min h (size - y'))
  ⟨x', y', w', h'⟩

/-- src/preprocessing/bbox_utils.py, xywh_to_yolo: absolute xywh to
YOLO normalized (center-x, center-y, width, height, each divided by size). -/
def xywh_to_yolo (x y w h : ℚ) (size : ℚ) : Box :=
  ⟨(x + w / 2) / size, (y + h / 2) / size, w / size, h / size⟩

end BboxUtils

/-- Python int() applied to a rational: truncation toward zero. -/
def pyInt (q : ℚ) : ℤ :=
  if 0 ≤ q then ⌊q⌋ else -⌊-q⌋

/-- Python range(0, stop, step) for step >= 1, as the list of the
multiples of step below stop. -/
def pyRange (stop step : ℕ) : List ℕ :=
  (List.range ((stop + step - 1) / step)).map (· * step)

/-- A tile placement (x0, y0, x1, y1) in parent-image pixel coordinates,
as appended to the coords list by both make_tiles implementations. -/
structure TileCoord where
  x0 : ℤ
  y0 : ℤ
  x1 : ℤ
  y1 : ℤ
deriving DecidableEq, Repr

/-- The error raised by both make_tiles implementations when the stride is
not positive (a ValueError in the source, named InvalidParameterError by
the spec's taxonomy). -/
inductive TilingError where
  | invalidParameter
deriving DecidableEq, Repr

namespace Tiler

/-- src/tiling/tiler.py, make_tiles, body of the double loop for one
(y0, x0) pair: clamp the window at the image edges, skip it if an origin
is still negative, and require the exact tile_size x tile_size shape
(the numpy slice img[y0:y1, x0:x1] has shape (y1-y0, x1-x0) here since
after clamping 0 <= x0 <= x1 <= w and 0 <= y0 <= y1 <= h). -/
def tileAt (h w tile_size : ℕ) (x0 y0 : ℤ) : Option TileCoord :=
  let x1 := x0 + tile_size
  let y1 := y0 + tile_size
  let px := if x1 > (w : ℤ) then ((w : ℤ) - tile_size, (w : ℤ)) else (x0, x1)
  let py := if y1 > (h : ℤ) then ((h : ℤ) - tile_size, (h : ℤ)) else (y0, y1)
  if px.1 < 0 ∨ py.1 < 0 then none
  else if py.2 - py.1 = tile_size ∧ px.2 - px.1 = tile_size then
    some ⟨px.1, py.1, px.2, py.2⟩
  else none

/-- src/tiling/tiler.py, make_tiles, the coords list produced by the
double loop over range(0, h, stride) x range(0, w, stride) once the
stride guard has passed.  Re-clamping the already clamped y origin on the
later x iterations of a row is the identity, so the per-pair clamping of
tileAt emits exactly the tuples the Python loop appends. -/
def tilerCoords (h w tile_size stride : ℕ) : List TileCoord :=
  (pyRange h stride).flatMap fun y0 : ℕ =>
    (pyRange w stride).filterMap fun x0 : ℕ =>
      tileAt h w tile_size (x0 : ℤ) (y0 : ℤ)

/-- src/tiling/tiler.py, make_tiles: stride = int(tile_size * (1 -
overlap ratio)); raise if stride <= 0, else emit the clamped coords. -/
def make_tiles (h w : ℕ) (tile_size : ℕ) (overlap : ℚ) :
    Except TilingError (List TileCoord) :=
  let stride := pyInt (tile_size * (1 - overlap))
  if stride ≤ 0 then .error .invalidParameter
  else .ok (tilerCoords h w tile_size stride.toNat)

end Tiler

namespace NotebookTiler

/-- notebook_experiments/tiler.py, make_tiles, body of the double loop:
x1 = min(x0 + tile_size, w), then shift x0 = max(x1 - tile_size, 0), and
keep the tile only if the slice shape equals tile_size on both axes. -/
def tileAt (h w tile_size : ℕ) (x0 y0 : ℤ) : Option TileCoord :=
  let x1 := min (x0 + tile_size) (w : ℤ)
  let y1 := min (y0 + tile_size) (h : ℤ)
  let x0' := max (x1 - tile_size) 0
  let y0' := max (y1 - tile_size) 0
  if y1 - y0' = tile_size ∧ x1 - x0' = tile_size then
    some ⟨x0', y0', x1, y1⟩
  else none

/-- notebook_experiments/tiler.py, make_tiles, the coords list of the
double loop over range(0, max(h - tile_size + 1, 1), stride) x
range(0, max(w - tile_size + 1, 1), stride); the Python stop value
max(h - tile_size + 1, 1) equals max (h + 1 - tile_size) 1 in Nat. -/
def tilerCoords (h w tile_size stride : ℕ) : List TileCoord :=
  (pyRange (max (h + 1 - tile_size) 1) stride).flatMap fun y0 : ℕ =>
    (pyRange (max (w + 1 - tile_size) 1) stride).filterMap fun x0 : ℕ =>
      tileAt h w tile_size (x0 : ℤ) (y0 : ℤ)

/-- notebook_experiments/tiler.py, make_tiles: same stride computation
and guard as the src tiler, then the shifted-window loop. -/
def make_tiles (h w : ℕ) (tile_size : ℕ) (overlap : ℚ) :
    Except TilingError (List TileCoord) :=
  let stride := pyInt (tile_size * (1 - overlap))
  if stride ≤ 0 then .error .invalidParameter
  else .ok (tilerCoords h w tile_size stride.toNat)

end NotebookTiler

namespace ResizePad

/-- The values computed by resize_and_pad of
src/preprocessing/resize_pad.py: the scale, the truncated resized
dimensions, the four pad amounts, and the dimensions of the padded
output of cv2.copyMakeBorder (resized size plus the four borders). -/
structure ResizeResult where
  scale : ℚ
  new_h : ℕ
  new_w : ℕ
  pad_top : ℕ
  pad_bottom : ℕ
  pad_left : ℕ
  pad_right : ℕ
  out_h : ℕ
  out_w : ℕ
deriving DecidableEq, Repr

/-- src/preprocessing/resize_pad.py, resize_and_pad, arithmetic part:
scale = target_size / max(h, w), new dims by int() truncation, centered
padding split with the remainder on the bottom/right.  The Nat
subtractions target_size - new_h and target_size - new_w match the
Python ints because new_h <= target_size and new_w <= target_size
(proved below). -/
def resize_and_pad (h w target_size : ℕ) : ResizeResult :=
  let scale : ℚ := (target_size : ℚ) / (max h w : ℕ)
  let new_h : ℕ := (pyInt ((h : ℚ) * scale)).toNat
  let new_w : ℕ := (pyInt ((w : ℚ) * scale)).toNat
  let pad_top := (target_size - new_h) / 2
  let pad_bottom := target_size - new_h - pad_top
  let pad_left := (target_size - new_w) / 2
  let pad_right := target_size - new_w - pad_left
  ⟨scale, new_h, new_w, pad_top, pad_bottom, pad_left, pad_right,
    pad_top + new_h + pad_bottom, pad_left + new_w + pad_right⟩

/-- The runtime errors reachable from the resize path as written:
the explicit FileNotFoundError of load_rgb when cv2.imdecode returns
None, and the ZeroDivisionError of the unguarded division
target_size / max(h, w) when both dimensions are zero.  The
invalidDimension constructor stands for the InvalidDimensionError named
by the spec; no code path produces it. -/
inductive ResizeError where
  | cannotReadImage
  | zeroDivision
  | invalidDimension
deriving DecidableEq, Repr

/-- src/preprocessing/resize_pad.py, load_rgb: np.fromfile + cv2.imdecode,
modelled by its result (none when the bytes do not decode to an image);
on none the function raises FileNotFoundError("Cannot read image: ..."). -/
def load_rgb (decoded : Option (ℕ × ℕ)) : Except ResizeError (ℕ × ℕ) :=
  match decoded with
  | none => .error .cannotReadImage
  | some img => .ok img

/-- src/preprocessing/resize_pad.py, resize_and_pad, as run by Python:
there is no dimension guard, so when h = w = 0 the very first line
target_size / max(h, w) raises ZeroDivisionError; otherwise the
arithmetic of resize_and_pad proceeds. -/
def resize_and_pad_run (h w target_size : ℕ) :
    Except ResizeError ResizeResult :=
  if max h w = 0 then .error .zeroDivision
  else .ok (resize_and_pad h w target_size)

end ResizePad

/-- The class-id to label map shared by armeta_backend/main.py and
src/batch_detect_to_json.py (ID2LABEL = {0: signature, 1: stamp, 2: qr}). -/
def ID2LABEL : ℕ → Option String := fun cid =>
  match cid with
  | 0 => some "signature"
  | 1 => some "stamp"
  | 2 => some "qr"
  | _ => none

/-- One raw detector output: an xyxy box, its class id and confidence,
as unpacked from boxes.xyxy, boxes.cls, boxes.conf. -/
structure RawBox where
  x1 : ℚ
  y1 : ℚ
  x2 : ℚ
  y2 : ℚ
  cid : ℕ
  score : ℚ
deriving DecidableEq, Repr

namespace Backend

/-- The Detection record of armeta_backend/main.py: id index, label,
score, and normalized top-left x, y, w, h. -/
structure Detection where
  idx : ℕ
  label : String
  score : ℚ
  x : ℚ
  y : ℚ
  w : ℚ
  h : ℚ
deriving DecidableEq, Repr

/-- armeta_backend/main.py, the max(0.0, min(1.0, v)) clamp used on each
normalized coordinate. -/
def clamp01 (v : ℚ) : ℚ := max 0 (min 1 v)

/-- armeta_backend/main.py, run_yolo_on_image, detection loop: enumerate
the raw boxes, silently skip any class id outside ID2LABEL, convert the
rest to top-left + size and normalize each coordinate by the image
dimensions with a [0,1] clamp.  The enumerate index i is taken over all
raw boxes, skipped ones included, exactly as in the source. -/
def run_yolo_on_image (w_img h_img : ℚ) (boxes : List RawBox) :
    List Detection :=
  boxes.enum.filterMap fun p =>
    let i := p.1
    let b := p.2
    match ID2LABEL b.cid with
    | none => none
    | some label =>
      let w_box := b.x2 - b.x1
      let h_box := b.y2 - b.y1
      some ⟨i, label, b.score,
        clamp01 (b.x1 / w_img), clamp01 (b.y1 / h_img),
        clamp01 (w_box / w_img), clamp01 (h_box / h_img)⟩

end Backend

namespace BatchDetect

/-- One annotation entry written by run_yolo_on_image of
src/batch_detect_to_json.py: the annotation_i wrapper index (1-based),
the category string, the top-left bbox and its area. -/
structure BatchAnn where
  idx : ℕ
  category : String
  x : ℚ
  y : ℚ
  width : ℚ
  height : ℚ
  area : ℚ
deriving DecidableEq, Repr

/-- src/batch_detect_to_json.py, run_yolo_on_image, detection loop:
every raw box is appended; the category is ID2LABEL.get(cid, "unknown"),
so an unknown class id is kept with category "unknown", not dropped. -/
def run_yolo_on_image (boxes : List RawBox) : List BatchAnn :=
  boxes.enum.map fun p =>
    let b := p.2
    let w := b.x2 - b.x1
    let h := b.y2 - b.y1
    ⟨p.1 + 1, (ID2LABEL b.cid).getD "unknown", b.x1, b.y1, w, h, w * h⟩

end BatchDetect

namespace BuildYolo

/-- src/preprocessing/build_yolo_dataset.py, CLASS_MAP: category name to
YOLO class id. -/
def CLASS_MAP : String → Option ℕ := fun c =>
  if c = "signature" then some 0
  else if c = "stamp" then some 1
  else if c = "qr" then some 2
  else none

/-- src/preprocessing/build_yolo_dataset.py, label-writing loop body for
one annotation (lines 197-216): an unknown category is skipped with a
warning (no line written, modelled as none); a known one is converted to
preprocessed coordinates, clipped to the default 1024 square and written
as a YOLO-normalized line with its class id. -/
def label_line (category : String) (x y w h : ℚ) (meta : TransformMeta) :
    Option (ℕ × Box) :=
  match CLASS_MAP category with
  | none => none
  | some cid =>
    let p := BboxUtils.convert_orig_to_preprocessed x y w h meta
    let c := BboxUtils.clip_bbox p.x p.y p.w p.h 1024
    some (cid, BboxUtils.xywh_to_yolo c.x c.y c.w c.h 1024)

end BuildYolo

/-! Helper lemmas. -/

lemma pyInt_of_nonneg {q : ℚ} (h : 0 ≤ q) : pyInt q = ⌊q⌋ := if_pos h

lemma pyInt_nonpos_iff (q : ℚ) : pyInt q ≤ 0 ↔ ⌊q⌋ ≤ 0 := by
  unfold pyInt
  split_ifs with h
  · exact Iff.rfl
  · have h1 : ⌊q⌋ ≤ 0 := Int.floor_nonpos (le_of_not_le h)
    have h2 : (0:ℤ) ≤ ⌊-q⌋ := Int.floor_nonneg.mpr (by linarith [le_of_not_le h])
    constructor <;> intro <;> omega

lemma lt_ceilDiv_iff (q stop step : ℕ) (hstep : 0 < step) :
    q < (stop + step - 1) / step ↔ q * step < stop := by
  rw [Nat.lt_iff_add_one_le, Nat.le_div_iff_mul_le hstep, Nat.add_mul, one_mul]
  generalize q * step = m
  omega

lemma mem_pyRange_of (stop step q : ℕ) (hstep : 0 < step)
    (h : q * step < stop) : q * step ∈ pyRange stop step := by
  unfold pyRange
  exact List.mem_map.mpr
    ⟨q, List.mem_range.mpr ((lt_ceilDiv_iff q stop step hstep).mpr h), rfl⟩

/-- Clamping twice with the same bounds is the same as clamping once,
whether or not lo <= hi. -/
lemma clamp_idem (lo hi v : ℚ) :
    max lo (min (max lo (min v hi)) hi) = max lo (min v hi) := by
  rcases le_total lo (min v hi) with h | h
  · rw [max_eq_right h, min_eq_left (min_le_right v hi), max_eq_right h]
  · rw [max_eq_left h]
    rcases le_total lo hi with h2 | h2
    · rw [min_eq_left h2, max_eq_left le_rfl]
    · rw [min_eq_right h2, max_eq_left h2]

namespace BboxUtils

lemma clip_x_nonneg (x y w h size : ℚ) : 0 ≤ (clip_bbox x y w h size).x :=
  le_max_left 0 _

lemma clip_y_nonneg (x y w h size : ℚ) : 0 ≤ (clip_bbox x y w h size).y :=
  le_max_left 0 _

lemma clip_x_le (x y w h size : ℚ) (hs : 1 ≤ size) :
    (clip_bbox x y w h size).x ≤ size - 1 :=
  max_le (by linarith) (min_le_right x (size - 1))

lemma clip_y_le (x y w h size : ℚ) (hs : 1 ≤ size) :
    (clip_bbox x y w h size).y ≤ size - 1 :=
  max_le (by linarith) (min_le_right y (size - 1))

lemma clip_w_ge (x y w h size : ℚ) : 1 ≤ (clip_bbox x y w h size).w :=
  le_max_left 1 _

lemma clip_h_ge (x y w h size : ℚ) : 1 ≤ (clip_bbox x y w h size).h :=
  le_max_left 1 _

lemma clip_w_le (x y w h size : ℚ) (hs : 1 ≤ size) :
    (clip_bbox x y w h size).w ≤ size - (clip_bbox x y w h size).x := by
  have hx := clip_x_le x y w h size hs
  exact max_le (by simp only [clip_bbox] at hx ⊢; linarith)
    (min_le_right w _)

lemma clip_h_le (x y w h size : ℚ) (hs : 1 ≤ size) :
    (clip_bbox x y w h size).h ≤ size - (clip_bbox x y w h size).y := by
  have hy := clip_y_le x y w h size hs
  exact max_le (by simp only [clip_bbox] at hy ⊢; linarith)
    (min_le_right h _)

end BboxUtils

/-! Claim theorems. -/

open BboxUtils

/-- The x0 resp. y0 actually used by the src tiler after the edge clamp. -/
def clampLo (bound tile_size : ℕ) (v : ℤ) : ℤ :=
  if v + tile_size > (bound : ℤ) then (bound : ℤ) - tile_size else v

/-- The x1 resp. y1 actually used by the src tiler after the edge clamp. -/
def clampHi (bound tile_size : ℕ) (v : ℤ) : ℤ :=
  if v + tile_size > (bound : ℤ) then (bound : ℤ) else v + tile_size

lemma Tiler.tileAt_eq (h w tile_size : ℕ) (x0 y0 : ℤ) :
    Tiler.tileAt h w tile_size x0 y0 =
      if clampLo w tile_size x0 < 0 ∨ clampLo h tile_size y0 < 0 then none
      else some ⟨clampLo w tile_size x0, clampLo h tile_size y0,
        clampHi w tile_size x0, clampHi h tile_size y0⟩ := by
  unfold Tiler.tileAt clampLo clampHi
  by_cases hx : x0 + (tile_size:ℤ) > (w:ℤ) <;>
    by_cases hy : y0 + (tile_size:ℤ) > (h:ℤ) <;>
      simp [hx, hy]

lemma Tiler.mem_tilerCoords_props (h w tile_size stride : ℕ) (c : TileCoord)
    (hc : c ∈ Tiler.tilerCoords h w tile_size stride) :
    c.x1 - c.x0 = tile_size ∧ c.y1 - c.y0 = tile_size ∧
      0 ≤ c.x0 ∧ c.x1 ≤ w ∧ 0 ≤ c.y0 ∧ c.y1 ≤ h := by
  simp only [Tiler.tilerCoords, List.mem_flatMap, List.mem_filterMap] at hc
  obtain ⟨y0, _, x0, _, hx⟩ := hc
  rw [Tiler.tileAt_eq] at hx
  split_ifs at hx with hneg
  push_neg at hneg
  simp only [Option.some.injEq] at hx
  subst hx
  simp only [clampLo, clampHi] at hneg ⊢
  split_ifs at hneg ⊢ <;> omega

lemma NotebookTiler.mem_nbTilerCoords_props (h w tile_size stride : ℕ)
    (c : TileCoord) (hc : c ∈ NotebookTiler.tilerCoords h w tile_size stride) :
    c.x1 - c.x0 = tile_size ∧ c.y1 - c.y0 = tile_size ∧
      0 ≤ c.x0 ∧ c.x1 ≤ w ∧ 0 ≤ c.y0 ∧ c.y1 ≤ h := by
  simp only [NotebookTiler.tilerCoords, List.mem_flatMap,
    List.mem_filterMap] at hc
  obtain ⟨y0, _, x0, hx0r, hx⟩ := hc
  simp only [NotebookTiler.tileAt] at hx
  split_ifs at hx with hshape
  simp only [Option.some.injEq] at hx
  subst hx
  obtain ⟨hy, hx⟩ := hshape
  refine ⟨hx, hy, le_max_right _ 0, min_le_right _ _,
    le_max_right _ 0, min_le_right _ _⟩

/-- Common form of the two make_tiles wrappers: the guard raises exactly
when the truncated stride is not positive, which is exactly when the
floor of tile_size * (1 - overlap) is not positive. -/
lemma make_tiles_error_iff (f : ℕ → List TileCoord) (tile_size : ℕ)
    (overlap : ℚ) :
    (if pyInt (tile_size * (1 - overlap)) ≤ 0 then
        (Except.error TilingError.invalidParameter :
          Except TilingError (List TileCoord))
      else .ok (f (pyInt (tile_size * (1 - overlap))).toNat))
        = .error .invalidParameter
      ↔ ⌊(tile_size : ℚ) * (1 - overlap)⌋ ≤ 0 := by
  rw [← pyInt_nonpos_iff]
  split_ifs with hg
  · simp [hg]
  · simp [hg]

/-- One axis of the src tiler's coverage argument: for a pixel position
below the bound, the loop origin at (px / stride) * stride produces,
after the edge clamp, a window containing the pixel. -/
lemma axis_cover (bound tile_size stride px : ℕ) (h1 : 1 ≤ stride)
    (h2 : stride ≤ tile_size) (h3 : tile_size ≤ bound) (hpx : px < bound) :
    ∃ v ∈ pyRange bound stride, 0 ≤ clampLo bound tile_size (v : ℤ) ∧
      clampLo bound tile_size (v : ℤ) ≤ (px : ℤ) ∧
      (px : ℤ) < clampHi bound tile_size (v : ℤ) := by
  have hpos : 0 < stride := h1
  refine ⟨px / stride * stride, mem_pyRange_of bound stride (px / stride)
    hpos (lt_of_le_of_lt (Nat.div_mul_le_self px stride) hpx), ?_⟩
  have hm1 : px / stride * stride ≤ px := Nat.div_mul_le_self px stride
  have hm2 : px < px / stride * stride + stride := Nat.lt_div_mul_add hpos
  unfold clampLo clampHi
  generalize px / stride * stride = m at hm1 hm2 ⊢
  split_ifs <;> omega

/-- One axis of the far-edge argument: the last loop origin produces,
after the edge clamp, a window whose far edge is exactly the bound. -/
lemma axis_far (bound tile_size stride : ℕ) (h1 : 1 ≤ stride)
    (h2 : stride ≤ tile_size) (h3 : tile_size ≤ bound) :
    ∃ v ∈ pyRange bound stride, 0 ≤ clampLo bound tile_size (v : ℤ) ∧
      clampHi bound tile_size (v : ℤ) = (bound : ℤ) := by
  have hpos : 0 < stride := h1
  have hbound : 0 < bound := lt_of_lt_of_le (lt_of_lt_of_le h1 h2) h3
  set n := (bound + stride - 1) / stride with hn
  have hn1 : 0 < n := by
    have := (lt_ceilDiv_iff 0 bound stride hpos).mpr (by simpa using hbound)
    omega
  obtain ⟨k, hk⟩ : ∃ k, n = k + 1 := ⟨n - 1, by omega⟩
  have hmem : k * stride < bound :=
    (lt_ceilDiv_iff k bound stride hpos).mp (by omega)
  have hlast : ¬ n * stride < bound := by
    intro hcon
    exact absurd ((lt_ceilDiv_iff n bound stride hpos).mpr hcon) (lt_irrefl n)
  have hns : n * stride = k * stride + stride := by
    rw [hk, Nat.add_mul, one_mul]
  refine ⟨k * stride, mem_pyRange_of bound stride k hpos hmem, ?_⟩
  unfold clampLo clampHi
  rw [hns] at hlast
  generalize k * stride = m at hmem hlast ⊢
  split_ifs <;> omega

/-- A successful src make_tiles call runs the loop with a stride that is
positive and, for a non-negative overlap, at most tile_size. -/
lemma Tiler.make_tiles_ok (h w tile_size : ℕ) (overlap : ℚ)
    (L : List TileCoord) (hr : 0 ≤ overlap)
    (hok : Tiler.make_tiles h w tile_size overlap = .ok L) :
    ∃ stride : ℕ, 1 ≤ stride ∧ stride ≤ tile_size ∧
      L = Tiler.tilerCoords h w tile_size stride := by
  simp only [Tiler.make_tiles] at hok
  split_ifs at hok with hg
  push_neg at hg
  simp only [Except.ok.injEq] at hok
  refine ⟨(pyInt ((tile_size : ℚ) * (1 - overlap))).toNat, by omega, ?_,
    hok.symm⟩
  by_cases hq : 0 ≤ (tile_size : ℚ) * (1 - overlap)
  · rw [pyInt_of_nonneg hq]
    have hle : (tile_size : ℚ) * (1 - overlap) ≤ (tile_size : ℚ) := by
      have h0 : (0:ℚ) ≤ (tile_size : ℚ) := by positivity
      nlinarith
    have : ⌊(tile_size : ℚ) * (1 - overlap)⌋ ≤ (tile_size : ℤ) := by
      calc ⌊(tile_size : ℚ) * (1 - overlap)⌋ ≤ ⌊(tile_size : ℚ)⌋ :=
            Int.floor_le_floor hle
        _ = (tile_size : ℤ) := Int.floor_natCast tile_size
    exact Int.toNat_le.mpr this
  · have : pyInt ((tile_size : ℚ) * (1 - overlap)) ≤ 0 := by
      unfold pyInt
      rw [if_neg hq]
      have : (0:ℤ) ≤ ⌊-((tile_size : ℚ) * (1 - overlap))⌋ :=
        Int.floor_nonneg.mpr (by linarith [lt_of_not_le hq])
      omega
    omega

/-- C2 as amended: tiling coverage holds for the src/src/tiling/tiler.py
implementation.  For every image with H, W >= tile_size and every
non-negative overlap for which make_tiles succeeds, every pixel
(px, py) with px < W, py < H lies in at least one emitted tile's
half-open region.  (The claim's second implementation, the notebook
tiler, violates coverage; see the counterexample.) -/
theorem claim_C2_src_coverage (h w tile_size : ℕ) (overlap : ℚ)
    (L : List TileCoord) (px py : ℕ) (hr : 0 ≤ overlap)
    (hok : Tiler.make_tiles h w tile_size overlap = .ok L)
    (hwt : tile_size ≤ w) (hht : tile_size ≤ h)
    (hpx : px < w) (hpy : py < h) :
    ∃ c ∈ L, c.x0 ≤ (px : ℤ) ∧ (px : ℤ) < c.x1 ∧
      c.y0 ≤ (py : ℤ) ∧ (py : ℤ) < c.y1 := by
  obtain ⟨s, hs1, hs2, hL⟩ :=
    Tiler.make_tiles_ok h w tile_size overlap L hr hok
  subst hL
  obtain ⟨vx, hvxm, hx0, hx1, hx2⟩ :=
    axis_cover w tile_size s px hs1 hs2 hwt hpx
  obtain ⟨vy, hvym, hy0, hy1, hy2⟩ :=
    axis_cover h tile_size s py hs1 hs2 hht hpy
  refine ⟨⟨clampLo w tile_size (vx : ℤ), clampLo h tile_size (vy : ℤ),
    clampHi w tile_size (vx : ℤ), clampHi h tile_size (vy : ℤ)⟩,
    ?_, hx1, hx2, hy1, hy2⟩
  simp only [Tiler.tilerCoords, List.mem_flatMap, List.mem_filterMap]
  refine ⟨vy, hvym, vx, hvxm, ?_⟩
  rw [Tiler.tileAt_eq, if_neg ?_]
  push_neg
  exact ⟨hx0, hy0⟩

/-- Witness for C2 (amended): a 3 x 3 image tiled with tile_size 2 and
overlap 0 covers the far corner pixel (2, 2). -/
theorem claim_C2_src_coverage_witness :
    ∃ c ∈ Tiler.tilerCoords 3 3 2 2, c.x0 ≤ ((2:ℕ) : ℤ) ∧
      ((2:ℕ) : ℤ) < c.x1 ∧ c.y0 ≤ ((2:ℕ) : ℤ) ∧ ((2:ℕ) : ℤ) < c.y1 :=
  claim_C2_src_coverage 3 3 2 0 (Tiler.tilerCoords 3 3 2 2) 2 2
    (by norm_num)
    (by norm_num [Tiler.make_tiles, pyInt]; congr 1)
    (by norm_num) (by norm_num) (by norm_num) (by norm_num)

/-- Counterexample for C2: the notebook make_tiles on a 3 x 3 image with
tile_size 2 and overlap 0 (stride 2) emits only the tile (0, 0, 2, 2),
which does not contain the in-bounds pixel (2, 2) — so coverage fails
for that implementation even though 3 >= tile_size and the stride is
positive. -/
theorem claim_C2_counterexample :
    NotebookTiler.make_tiles 3 3 2 0 = .ok [⟨0, 0, 2, 2⟩] ∧
      2 ≤ (3:ℕ) ∧ (2:ℕ) < 3 ∧
      ∀ c ∈ ([⟨0, 0, 2, 2⟩] : List TileCoord),
        ¬ (c.x0 ≤ ((2:ℕ) : ℤ) ∧ ((2:ℕ) : ℤ) < c.x1 ∧
            c.y0 ≤ ((2:ℕ) : ℤ) ∧ ((2:ℕ) : ℤ) < c.y1) :=
  ⟨by norm_num [NotebookTiler.make_tiles, pyInt]; decide,
    by norm_num, by norm_num, by decide⟩

/-- C3 as amended: the src implementation always emits a tile reaching
the image's far edge (x1 = W and y1 = H), and on the spec's scenario
(tile_size 1024, overlap 0.2 hence stride 819, image 2000 x 2000) the
emitted x-origins are exactly {0, 819, 976} with the last tile ending at
(2000, 2000).  The emitted list is however not always duplicate-free
(see the counterexample), and the notebook implementation may emit no
far-edge tile at all. -/
theorem claim_C3_far_edge (h w tile_size stride : ℕ) (h1 : 1 ≤ stride)
    (h2 : stride ≤ tile_size) (h3 : tile_size ≤ w) (h4 : tile_size ≤ h) :
    (∃ c ∈ Tiler.tilerCoords h w tile_size stride,
        c.x1 = (w : ℤ) ∧ c.y1 = (h : ℤ)) ∧
      Tiler.make_tiles 2000 2000 1024 (1/5)
        = .ok (Tiler.tilerCoords 2000 2000 1024 819) ∧
      ((Tiler.tilerCoords 2000 2000 1024 819).map TileCoord.x0).dedup
        = [0, 819, 976] ∧
      (Tiler.tilerCoords 2000 2000 1024 819).getLast?
        = some ⟨976, 976, 2000, 2000⟩ := by
  refine ⟨?_, by norm_num [Tiler.make_tiles, pyInt]; congr 1,
    by decide, by decide⟩
  obtain ⟨vx, hvxm, hx0, hx1⟩ := axis_far w tile_size stride h1 h2 h3
  obtain ⟨vy, hvym, hy0, hy1⟩ := axis_far h tile_size stride h1 h2 h4
  refine ⟨⟨clampLo w tile_size (vx : ℤ), clampLo h tile_size (vy : ℤ),
    clampHi w tile_size (vx : ℤ), clampHi h tile_size (vy : ℤ)⟩,
    ?_, hx1, hy1⟩
  simp only [Tiler.tilerCoords, List.mem_flatMap, List.mem_filterMap]
  refine ⟨vy, hvym, vx, hvxm, ?_⟩
  rw [Tiler.tileAt_eq, if_neg ?_]
  push_neg
  exact ⟨hx0, hy0⟩

/-- Witness for C3 (amended) at the spec scenario parameters. -/
theorem claim_C3_far_edge_witness :
    (∃ c ∈ Tiler.tilerCoords 2000 2000 1024 819,
        c.x1 = ((2000:ℕ) : ℤ) ∧ c.y1 = ((2000:ℕ) : ℤ)) ∧
      Tiler.make_tiles 2000 2000 1024 (1/5)
        = .ok (Tiler.tilerCoords 2000 2000 1024 819) ∧
      ((Tiler.tilerCoords 2000 2000 1024 819).map TileCoord.x0).dedup
        = [0, 819, 976] ∧
      (Tiler.tilerCoords 2000 2000 1024 819).getLast?
        = some ⟨976, 976, 2000, 2000⟩ :=
  claim_C3_far_edge 2000 2000 1024 819 (by norm_num) (by norm_num)
    (by norm_num) (by norm_num)

/-- Counterexample for C3: on a 1843 x 1843 image with tile_size 1024
and overlap 0.2 (stride 819) the src make_tiles emits the same
coordinate tuple more than once (origins 819 and 1638 both clamp to the
tile (819, 1843) on each axis), so the emitted coordinate list has
duplicates and the far edge is not covered exactly once. -/
theorem claim_C3_counterexample :
    Tiler.make_tiles 1843 1843 1024 (1/5)
      = .ok (Tiler.tilerCoords 1843 1843 1024 819) ∧
      1024 ≤ (1843:ℕ) ∧
      ¬ (Tiler.tilerCoords 1843 1843 1024 819).Nodup :=
  ⟨by norm_num [Tiler.make_tiles, pyInt]; congr 1, by norm_num, by decide⟩

/-- C4: tiling exactness and stride guard, for both make_tiles
implementations.  Each raises InvalidParameterError exactly when
floor(tile_size * (1 - overlap)) <= 0; when it returns coords, every
emitted tuple satisfies x1 - x0 = tile_size = y1 - y0 and lies within
the parent bounds 0 <= x0, x1 <= W, 0 <= y0, y1 <= H (so every emitted
numpy slice is exactly tile_size x tile_size, never padded). -/
theorem claim_C4_exactness_and_guard (h w tile_size : ℕ) (overlap : ℚ) :
    (Tiler.make_tiles h w tile_size overlap = .error .invalidParameter
      ↔ ⌊(tile_size : ℚ) * (1 - overlap)⌋ ≤ 0) ∧
    (∀ L, Tiler.make_tiles h w tile_size overlap = .ok L →
      ∀ c ∈ L, c.x1 - c.x0 = tile_size ∧ c.y1 - c.y0 = tile_size ∧
        0 ≤ c.x0 ∧ c.x1 ≤ w ∧ 0 ≤ c.y0 ∧ c.y1 ≤ h) ∧
    (NotebookTiler.make_tiles h w tile_size overlap
        = .error .invalidParameter
      ↔ ⌊(tile_size : ℚ) * (1 - overlap)⌋ ≤ 0) ∧
    (∀ L, NotebookTiler.make_tiles h w tile_size overlap = .ok L →
      ∀ c ∈ L, c.x1 - c.x0 = tile_size ∧ c.y1 - c.y0 = tile_size ∧
        0 ≤ c.x0 ∧ c.x1 ≤ w ∧ 0 ≤ c.y0 ∧ c.y1 ≤ h) := by
  refine ⟨make_tiles_error_iff _ tile_size overlap, ?_,
    make_tiles_error_iff _ tile_size overlap, ?_⟩
  · intro L hL c hc
    simp only [Tiler.make_tiles] at hL
    split_ifs at hL
    simp only [Except.ok.injEq] at hL
    subst hL
    exact Tiler.mem_tilerCoords_props h w tile_size _ c hc
  · intro L hL c hc
    simp only [NotebookTiler.make_tiles] at hL
    split_ifs at hL
    simp only [Except.ok.injEq] at hL
    subst hL
    exact NotebookTiler.mem_nbTilerCoords_props h w tile_size _ c hc

/-- Witness for C4: with overlap 3/2 the stride truncates to a
non-positive value and both implementations raise. -/
theorem claim_C4_exactness_and_guard_witness :
    Tiler.make_tiles 2000 2000 1024 (3/2) = .error .invalidParameter ∧
      NotebookTiler.make_tiles 2000 2000 1024 (3/2)
        = .error .invalidParameter :=
  ⟨(claim_C4_exactness_and_guard 2000 2000 1024 (3/2)).1.mpr
      (by norm_num [Int.floor_eq_iff]),
    (claim_C4_exactness_and_guard 2000 2000 1024 (3/2)).2.2.1.mpr
      (by norm_num [Int.floor_eq_iff])⟩

/-- C1: round-trip of the forward box map.  For every box (x, y, w, h)
and every transform metadata with scale > 0, convert_orig_to_preprocessed
followed by the spec's inverse map ((x' - pad_left)/scale,
(y' - pad_top)/scale, w'/scale, h'/scale) reproduces the original box
exactly over exact rational arithmetic. -/
theorem claim_C1_roundtrip (x y w h : ℚ) (m : TransformMeta)
    (hs : 0 < m.scale) :
    convert_preprocessed_to_orig (convert_orig_to_preprocessed x y w h m) m
      = ⟨x, y, w, h⟩ := by
  have hs0 : m.scale ≠ 0 := ne_of_gt hs
  simp only [convert_orig_to_preprocessed, convert_preprocessed_to_orig,
    Box.mk.injEq]
  refine ⟨?_, ?_, ?_, ?_⟩ <;> field_simp

/-- Witness for C1 at the spec's own scenario: box (100, 50, 200, 80),
meta scale 1/2, pad_left 10, pad_top 20. -/
theorem claim_C1_roundtrip_witness :
    (0:ℚ) < (1/2 : ℚ) ∧
      convert_preprocessed_to_orig
        (convert_orig_to_preprocessed 100 50 200 80 ⟨1/2, 10, 20⟩)
        ⟨1/2, 10, 20⟩ = ⟨100, 50, 200, 80⟩ :=
  ⟨by norm_num, claim_C1_roundtrip 100 50 200 80 ⟨1/2, 10, 20⟩ (by norm_num)⟩

/-- C7: idempotence of clipping.  For every box and every size >= 1,
clip_bbox applied twice equals clip_bbox applied once. -/
theorem claim_C7_clip_idempotent (x y w h size : ℚ) (_hs : 1 ≤ size) :
    clip_bbox (clip_bbox x y w h size).x (clip_bbox x y w h size).y
        (clip_bbox x y w h size).w (clip_bbox x y w h size).h size
      = clip_bbox x y w h size := by
  simp only [clip_bbox, Box.mk.injEq]
  have hx : max 0 (min (max 0 (min x (size - 1))) (size - 1))
      = max 0 (min x (size - 1)) := clamp_idem 0 (size - 1) x
  have hy : max 0 (min (max 0 (min y (size - 1))) (size - 1))
      = max 0 (min y (size - 1)) := clamp_idem 0 (size - 1) y
  refine ⟨hx, hy, ?_, ?_⟩
  · rw [hx]
    exact clamp_idem 1 (size - max 0 (min x (size - 1))) w
  · rw [hy]
    exact clamp_idem 1 (size - max 0 (min y (size - 1))) h

/-- Witness for C7 at the spec's clipping scenario inputs:
box (-5, 1020, 50, 50) at size 1024. -/
theorem claim_C7_clip_idempotent_witness :
    (1:ℚ) ≤ 1024 ∧
      clip_bbox (clip_bbox (-5) 1020 50 50 1024).x
          (clip_bbox (-5) 1020 50 50 1024).y
          (clip_bbox (-5) 1020 50 50 1024).w
          (clip_bbox (-5) 1020 50 50 1024).h 1024
        = clip_bbox (-5) 1020 50 50 1024 :=
  ⟨by norm_num, claim_C7_clip_idempotent (-5) 1020 50 50 1024 (by norm_num)⟩

/-- C10: clip_bbox is total and never rejects a box: for every input it
returns width >= 1 and height >= 1; a box lying fully right of the square
(x = 2000, w = 50 at size 1024) becomes the degenerate border box
x = 1023, w = 1; and a known-category annotation always produces a label
line in build_yolo_dataset (label_line is some), so fully out-of-frame
annotations are written as degenerate boxes rather than discarded. -/
theorem claim_C10_clip_total (x y w h size : ℚ) (m : TransformMeta) :
    1 ≤ (clip_bbox x y w h size).w ∧ 1 ≤ (clip_bbox x y w h size).h ∧
      clip_bbox 2000 2000 50 50 1024 = ⟨1023, 1023, 1, 1⟩ ∧
      (BuildYolo.label_line "signature" x y w h m).isSome = true := by
  refine ⟨clip_w_ge x y w h size, clip_h_ge x y w h size, ?_, ?_⟩
  · simp only [clip_bbox, Box.mk.injEq]
    norm_num
  · simp [BuildYolo.label_line, BuildYolo.CLASS_MAP]

/-- C5: resize-and-pad contract.  For every image of size (H, W) with
H, W >= 1 and target square size T >= 1, the truncated resized
dimensions never exceed T, the centered padding makes the output exactly
T x T, and the 2000-wide scenario (H = 1000, W = 2000, T = 1024) yields
scale = 0.512 = 64/125, new_h = 512, new_w = 1024, pad_top = pad_bottom
= 256 and no horizontal padding. -/
theorem claim_C5_resize_and_pad (h w T : ℕ)
    (hh : 1 ≤ h) (_hw : 1 ≤ w) (hT : 1 ≤ T) :
    (ResizePad.resize_and_pad h w T).new_h ≤ T ∧
      (ResizePad.resize_and_pad h w T).new_w ≤ T ∧
      (ResizePad.resize_and_pad h w T).out_h = T ∧
      (ResizePad.resize_and_pad h w T).out_w = T ∧
      ResizePad.resize_and_pad 1000 2000 1024
        = ⟨64/125, 512, 1024, 256, 256, 0, 0, 1024, 1024⟩ := by
  have hM : (0:ℚ) < ((max h w : ℕ) : ℚ) := by
    have : 1 ≤ max h w := le_trans hh (le_max_left h w)
    exact_mod_cast Nat.lt_of_lt_of_le Nat.zero_lt_one this
  have key : ∀ d : ℕ, d ≤ max h w →
      (pyInt ((d : ℚ) * ((T : ℚ) / ((max h w : ℕ) : ℚ)))).toNat ≤ T := by
    intro d hd
    have hq0 : (0:ℚ) ≤ (d : ℚ) * ((T : ℚ) / ((max h w : ℕ) : ℚ)) := by
      positivity
    have hq : (d : ℚ) * ((T : ℚ) / ((max h w : ℕ) : ℚ)) ≤ (T : ℚ) := by
      rw [mul_div_assoc', div_le_iff₀ hM]
      have hdc : (d : ℚ) ≤ ((max h w : ℕ) : ℚ) := by exact_mod_cast hd
      have hT0 : (0:ℚ) ≤ (T : ℚ) := by positivity
      calc (d : ℚ) * (T : ℚ) ≤ ((max h w : ℕ) : ℚ) * (T : ℚ) :=
            mul_le_mul_of_nonneg_right hdc hT0
        _ = (T : ℚ) * ((max h w : ℕ) : ℚ) := mul_comm _ _
    rw [pyInt_of_nonneg hq0]
    have : ⌊(d : ℚ) * ((T : ℚ) / ((max h w : ℕ) : ℚ))⌋ ≤ (T : ℤ) := by
      calc ⌊(d : ℚ) * ((T : ℚ) / ((max h w : ℕ) : ℚ))⌋ ≤ ⌊(T : ℚ)⌋ :=
            Int.floor_le_floor hq
        _ = (T : ℤ) := Int.floor_natCast T
    exact Int.toNat_le.mpr this
  have hnh : (ResizePad.resize_and_pad h w T).new_h ≤ T :=
    key h (le_max_left h w)
  have hnw : (ResizePad.resize_and_pad h w T).new_w ≤ T :=
    key w (le_max_right h w)
  refine ⟨hnh, hnw, ?_, ?_, ?_⟩
  · simp only [ResizePad.resize_and_pad] at hnh ⊢
    omega
  · simp only [ResizePad.resize_and_pad] at hnw ⊢
    omega
  · simp only [ResizePad.resize_and_pad, ResizePad.ResizeResult.mk.injEq]
    norm_num [pyInt, Int.floor_eq_iff]
    omega

/-- Bounds of the backend clamp max(0.0, min(1.0, v)). -/
lemma clamp01_bounds (v : ℚ) :
    0 ≤ Backend.clamp01 v ∧ Backend.clamp01 v ≤ 1 :=
  ⟨le_max_left 0 _, max_le (by norm_num) (min_le_left 1 v)⟩

/-- C6: normalization bounds.  For every size >= 1 and every input box,
clip_bbox then xywh_to_yolo yields four outputs in (0, 1]; and every
detection returned by the backend run_yolo_on_image has its normalized
x, y, w, h in [0, 1]. -/
theorem claim_C6_normalization_bounds (x y w h size wi hi : ℚ)
    (hs : 1 ≤ size) (boxes : List RawBox) :
    (0 < (xywh_to_yolo (clip_bbox x y w h size).x (clip_bbox x y w h size).y
          (clip_bbox x y w h size).w (clip_bbox x y w h size).h size).x ∧
        (xywh_to_yolo (clip_bbox x y w h size).x (clip_bbox x y w h size).y
          (clip_bbox x y w h size).w (clip_bbox x y w h size).h size).x ≤ 1 ∧
      0 < (xywh_to_yolo (clip_bbox x y w h size).x (clip_bbox x y w h size).y
          (clip_bbox x y w h size).w (clip_bbox x y w h size).h size).y ∧
        (xywh_to_yolo (clip_bbox x y w h size).x (clip_bbox x y w h size).y
          (clip_bbox x y w h size).w (clip_bbox x y w h size).h size).y ≤ 1 ∧
      0 < (xywh_to_yolo (clip_bbox x y w h size).x (clip_bbox x y w h size).y
          (clip_bbox x y w h size).w (clip_bbox x y w h size).h size).w ∧
        (xywh_to_yolo (clip_bbox x y w h size).x (clip_bbox x y w h size).y
          (clip_bbox x y w h size).w (clip_bbox x y w h size).h size).w ≤ 1 ∧
      0 < (xywh_to_yolo (clip_bbox x y w h size).x (clip_bbox x y w h size).y
          (clip_bbox x y w h size).w (clip_bbox x y w h size).h size).h ∧
        (xywh_to_yolo (clip_bbox x y w h size).x (clip_bbox x y w h size).y
          (clip_bbox x y w h size).w (clip_bbox x y w h size).h size).h ≤ 1) ∧
    ∀ d ∈ Backend.run_yolo_on_image wi hi boxes,
      0 ≤ d.x ∧ d.x ≤ 1 ∧ 0 ≤ d.y ∧ d.y ≤ 1 ∧
        0 ≤ d.w ∧ d.w ≤ 1 ∧ 0 ≤ d.h ∧ d.h ≤ 1 := by
  constructor
  · have hsize : (0:ℚ) < size := by linarith
    have hx0 := clip_x_nonneg x y w h size
    have hy0 := clip_y_nonneg x y w h size
    have hx1 := clip_x_le x y w h size hs
    have hy1 := clip_y_le x y w h size hs
    have hw1 := clip_w_ge x y w h size
    have hh1 := clip_h_ge x y w h size
    have hw2 := clip_w_le x y w h size hs
    have hh2 := clip_h_le x y w h size hs
    set c := clip_bbox x y w h size with hc
    simp only [xywh_to_yolo]
    refine ⟨?_, ?_, ?_, ?_, ?_, ?_, ?_, ?_⟩
    · exact div_pos (by linarith) hsize
    · rw [div_le_one hsize]; linarith
    · exact div_pos (by linarith) hsize
    · rw [div_le_one hsize]; linarith
    · exact div_pos (by linarith) hsize
    · rw [div_le_one hsize]; linarith
    · exact div_pos (by linarith) hsize
    · rw [div_le_one hsize]; linarith
  · intro d hd
    simp only [Backend.run_yolo_on_image, List.mem_filterMap] at hd
    obtain ⟨p, _, hp⟩ := hd
    rcases hcid : ID2LABEL p.2.cid with _ | label
    · rw [hcid] at hp; simp at hp
    · rw [hcid] at hp
      simp only [Option.some.injEq] at hp
      subst hp
      exact ⟨(clamp01_bounds _).1, (clamp01_bounds _).2,
        (clamp01_bounds _).1, (clamp01_bounds _).2,
        (clamp01_bounds _).1, (clamp01_bounds _).2,
        (clamp01_bounds _).1, (clamp01_bounds _).2⟩

/-- Witness for C6 at box (-5, 1020, 50, 50), size 1024, a 100 x 200
image and one raw detector box of class 0. -/
theorem claim_C6_normalization_bounds_witness :
    (1:ℚ) ≤ 1024 ∧
      (0 < (xywh_to_yolo (clip_bbox (-5) 1020 50 50 1024).x
            (clip_bbox (-5) 1020 50 50 1024).y
            (clip_bbox (-5) 1020 50 50 1024).w
            (clip_bbox (-5) 1020 50 50 1024).h 1024).x ∧
          (xywh_to_yolo (clip_bbox (-5) 1020 50 50 1024).x
            (clip_bbox (-5) 1020 50 50 1024).y
            (clip_bbox (-5) 1020 50 50 1024).w
            (clip_bbox (-5) 1020 50 50 1024).h 1024).x ≤ 1 ∧
        0 < (xywh_to_yolo (clip_bbox (-5) 1020 50 50 1024).x
            (clip_bbox (-5) 1020 50 50 1024).y
            (clip_bbox (-5) 1020 50 50 1024).w
            (clip_bbox (-5) 1020 50 50 1024).h 1024).y ∧
          (xywh_to_yolo (clip_bbox (-5) 1020 50 50 1024).x
            (clip_bbox (-5) 1020 50 50 1024).y
            (clip_bbox (-5) 1020 50 50 1024).w
            (clip_bbox (-5) 1020 50 50 1024).h 1024).y ≤ 1 ∧
        0 < (xywh_to_yolo (clip_bbox (-5) 1020 50 50 1024).x
            (clip_bbox (-5) 1020 50 50 1024).y
            (clip_bbox (-5) 1020 50 50 1024).w
            (clip_bbox (-5) 1020 50 50 1024).h 1024).w ∧
          (xywh_to_yolo (clip_bbox (-5) 1020 50 50 1024).x
            (clip_bbox (-5) 1020 50 50 1024).y
            (clip_bbox (-5) 1020 50 50 1024).w
            (clip_bbox (-5) 1020 50 50 1024).h 1024).w ≤ 1 ∧
        0 < (xywh_to_yolo (clip_bbox (-5) 1020 50 50 1024).x
            (clip_bbox (-5) 1020 50 50 1024).y
            (clip_bbox (-5) 1020 50 50 1024).w
            (clip_bbox (-5) 1020 50 50 1024).h 1024).h ∧
          (xywh_to_yolo (clip_bbox (-5) 1020 50 50 1024).x
            (clip_bbox (-5) 1020 50 50 1024).y
            (clip_bbox (-5) 1020 50 50 1024).w
            (clip_bbox (-5) 1020 50 50 1024).h 1024).h ≤ 1) ∧
      ∀ d ∈ Backend.run_yolo_on_image 200 100 [⟨10, 20, 30, 40, 0, 9/10⟩],
        0 ≤ d.x ∧ d.x ≤ 1 ∧ 0 ≤ d.y ∧ d.y ≤ 1 ∧
          0 ≤ d.w ∧ d.w ≤ 1 ∧ 0 ≤ d.h ∧ d.h ≤ 1 :=
  ⟨by norm_num,
    claim_C6_normalization_bounds (-5) 1020 50 50 1024 200 100 (by norm_num)
      [⟨10, 20, 30, 40, 0, 9/10⟩]⟩

/-- Witness for C10 at a fully out-of-frame box and a concrete meta. -/
theorem claim_C10_clip_total_witness :
    1 ≤ (clip_bbox 2000 2000 50 50 1024).w ∧
      1 ≤ (clip_bbox 2000 2000 50 50 1024).h ∧
      clip_bbox 2000 2000 50 50 1024 = ⟨1023, 1023, 1, 1⟩ ∧
      (BuildYolo.label_line "signature" 2000 2000 50 50 ⟨1, 0, 0⟩).isSome
        = true :=
  claim_C10_clip_total 2000 2000 50 50 1024 ⟨1, 0, 0⟩

/-- Counterexample for C8: a detection with the unknown class id 7 is
not dropped by run_yolo_on_image of src/batch_detect_to_json.py — it
appears in the returned annotations list with category "unknown". -/
theorem claim_C8_counterexample :
    BatchDetect.run_yolo_on_image [⟨0, 0, 10, 10, 7, 1/2⟩]
      = [⟨1, "unknown", 0, 0, 10, 10, 100⟩] ∧ ID2LABEL 7 = none := by
  constructor
  · simp only [BatchDetect.run_yolo_on_image, List.enum, List.enumFrom,
      List.map_cons, List.map_nil, List.cons.injEq, and_true,
      BatchDetect.BatchAnn.mk.injEq]
    norm_num [ID2LABEL]
  · rfl

/-- C8 as amended: unknown class ids are silently dropped by the API
backend's run_yolo_on_image (every returned Detection's label comes from
a known id) and by the label writer of build_yolo_dataset (an unknown
category yields no label line); but run_yolo_on_image of
batch_detect_to_json keeps every detection, mapping an unknown class id
to the category string "unknown" in its annotations list. -/
theorem claim_C8_unknown_class_handling (wi hi : ℚ) (boxes : List RawBox) :
    (∀ d ∈ Backend.run_yolo_on_image wi hi boxes,
        ∃ cid, ID2LABEL cid = some d.label) ∧
      (BatchDetect.run_yolo_on_image boxes).map BatchDetect.BatchAnn.category
        = boxes.map (fun b => (ID2LABEL b.cid).getD "unknown") ∧
      ∀ category x y w h m, BuildYolo.CLASS_MAP category = none →
        BuildYolo.label_line category x y w h m = none := by
  refine ⟨?_, ?_, ?_⟩
  · intro d hd
    simp only [Backend.run_yolo_on_image, List.mem_filterMap] at hd
    obtain ⟨p, _, hp⟩ := hd
    rcases hcid : ID2LABEL p.2.cid with _ | label
    · rw [hcid] at hp; simp at hp
    · rw [hcid] at hp
      simp only [Option.some.injEq] at hp
      subst hp
      exact ⟨p.2.cid, hcid⟩
  · have hcomp : ∀ p : ℕ × RawBox,
        (BatchDetect.BatchAnn.category
            ⟨p.1 + 1, (ID2LABEL p.2.cid).getD "unknown", p.2.x1, p.2.y1,
              p.2.x2 - p.2.x1, p.2.y2 - p.2.y1,
              (p.2.x2 - p.2.x1) * (p.2.y2 - p.2.y1)⟩)
          = (ID2LABEL p.2.cid).getD "unknown" := fun _ => rfl
    simp only [BatchDetect.run_yolo_on_image, List.map_map]
    calc (boxes.enum.map
          ((fun a => BatchDetect.BatchAnn.category a) ∘ fun p =>
            ⟨p.1 + 1, (ID2LABEL p.2.cid).getD "unknown", p.2.x1, p.2.y1,
              p.2.x2 - p.2.x1, p.2.y2 - p.2.y1,
              (p.2.x2 - p.2.x1) * (p.2.y2 - p.2.y1)⟩))
        = boxes.enum.map
            ((fun b => (ID2LABEL b.cid).getD "unknown") ∘ Prod.snd) := by
          exact List.map_congr_left (fun p _ => hcomp p)
      _ = (boxes.enum.map Prod.snd).map
            (fun b => (ID2LABEL b.cid).getD "unknown") := by
          rw [List.map_map]
      _ = boxes.map (fun b => (ID2LABEL b.cid).getD "unknown") := by
          rw [List.enum_map_snd]
  · intro category x y w h m hnone
    simp [BuildYolo.label_line, hnone]

/-- Witness for C8 (amended): the unknown category "person" produces no
label line, while the backend output on one known-class box has a known
label. -/
theorem claim_C8_unknown_class_handling_witness :
    BuildYolo.label_line "person" 1 2 3 4 ⟨1, 0, 0⟩ = none :=
  (claim_C8_unknown_class_handling 1 1 []).2.2 "person" 1 2 3 4 ⟨1, 0, 0⟩
    (by decide)

/-- Counterexample for C9: resize_and_pad on a 0 x 0 image does not fail
with InvalidDimensionError — there is no dimension guard in the source,
and the unguarded division target_size / max(h, w) raises
ZeroDivisionError instead. -/
theorem claim_C9_counterexample :
    ResizePad.resize_and_pad_run 0 0 1024
        = .error ResizePad.ResizeError.zeroDivision ∧
      ResizePad.ResizeError.zeroDivision
        ≠ ResizePad.ResizeError.invalidDimension :=
  ⟨by simp [ResizePad.resize_and_pad_run], by decide⟩

/-- C9 as amended: load_rgb raises its distinguished error (a
FileNotFoundError with message "Cannot read image", playing the spec's
ImageReadError role) exactly when the bytes do not decode; but
resize_and_pad has no zero-dimension guard: with h = w = 0 it raises
ZeroDivisionError at the scale computation, and no code path raises an
InvalidDimensionError. -/
theorem claim_C9_error_taxonomy :
    (∀ d : Option (ℕ × ℕ),
        ResizePad.load_rgb d = .error .cannotReadImage ↔ d = none) ∧
      (∀ T, ResizePad.resize_and_pad_run 0 0 T
        = .error ResizePad.ResizeError.zeroDivision) ∧
      ∀ h w T e, ResizePad.resize_and_pad_run h w T = .error e →
        e = ResizePad.ResizeError.zeroDivision ∧ h = 0 ∧ w = 0 := by
  refine ⟨?_, ?_, ?_⟩
  · intro d
    cases d <;> simp [ResizePad.load_rgb]
  · intro T
    simp [ResizePad.resize_and_pad_run]
  · intro h w T e hE
    unfold ResizePad.resize_and_pad_run at hE
    split_ifs at hE with hz
    simp only [Except.error.injEq] at hE
    refine ⟨hE.symm, ?_, ?_⟩ <;> omega

/-- Witness for C9 (amended): an undecodable input makes load_rgb raise
its distinguished error. -/
theorem claim_C9_error_taxonomy_witness :
    ResizePad.load_rgb none = .error .cannotReadImage :=
  (claim_C9_error_taxonomy.1 none).mpr rfl

/-- Witness for C5 at the spec's scenario image 1000 x 2000 with target
size 1024. -/
theorem claim_C5_resize_and_pad_witness :
    (ResizePad.resize_and_pad 1000 2000 1024).new_h ≤ 1024 ∧
      (ResizePad.resize_and_pad 1000 2000 1024).new_w ≤ 1024 ∧
      (ResizePad.resize_and_pad 1000 2000 1024).out_h = 1024 ∧
      (ResizePad.resize_and_pad 1000 2000 1024).out_w = 1024 ∧
      ResizePad.resize_and_pad 1000 2000 1024
        = ⟨64/125, 512, 1024, 256, 256, 0, 0, 1024, 1024⟩ :=
  claim_C5_resize_and_pad 1000 2000 1024 (by norm_num) (by norm_num)
    (by norm_num)

end Armeta
